import Mathlib

/-!
Verification of the nbsafety dependency-tracking engine against its
natural-language specification.

Each section shallowly embeds one part of the source
(`nbsafety/precheck.py`, `nbsafety/safety.py`,
`nbsafety/data_model/scope.py`) as executable Lean definitions and proves
the specified properties about them.  Python sets are modelled as
duplicate-free lists (insertion order preserved), Python dicts as
association lists, and raised exceptions as `Except` values.
-/

namespace NbSafety

/-- Insert a string into a list-as-set, keeping insertion order
(models Python `set.add`). -/
def insertStr (s : List String) (x : String) : List String :=
  if x ∈ s then s else s ++ [x]

theorem mem_insertStr_self (s : List String) (x : String) : x ∈ insertStr s x := by
  unfold insertStr
  by_cases h : x ∈ s <;> simp [h]

theorem mem_insertStr_of_mem (s : List String) (x y : String) (h : y ∈ s) :
    y ∈ insertStr s x := by
  unfold insertStr
  by_cases hx : x ∈ s <;> simp [hx, h]

/-! ### Embedding of `nbsafety/precheck.py`

The precheck walker operates on one cell's syntax tree.  We embed the
fragment of the Python AST that the walker inspects: expressions
(`ast.Name`, constants, binary operations, subscripts, attributes,
tuples, calls) and statements (`ast.Assign`, `ast.AugAssign`,
`ast.FunctionDef`, `ast.For`, bare expression statements). -/

inductive PExpr where
  | nameE (id : String)
  | constE (n : Int)
  | binOpE (lhs rhs : PExpr)
  | subscriptE (value index : PExpr)
  | attributeE (value : PExpr) (attr : String)
  | tupleE (elts : List PExpr)
  | callE (func : PExpr) (args : List PExpr)
  deriving Repr

inductive PStmt where
  | assign (targets : List PExpr) (value : PExpr)
  | augAssign (target : PExpr) (value : PExpr)
  | functionDef (name : String) (defaults : List PExpr) (body : List PStmt)
  | forStmt (target : PExpr) (iter : PExpr) (body : List PStmt)
  | exprStmt (value : PExpr)
  deriving Repr

/-- Error raised by the walker (`UNEXPECTED_STATES` in
`nbsafety/unexpected.py`): records the sub-module and the method that
detected the unmodeled shape. -/
structure UnexpectedState where
  inModule : String
  inMethod : String
  deriving DecidableEq, Repr

instance instDecEqExcept {ε α : Type} [DecidableEq ε] [DecidableEq α] :
    DecidableEq (Except ε α) := fun x y =>
  match x, y with
  | .ok a, .ok b =>
    match decEq a b with
    | isTrue h => isTrue (by rw [h])
    | isFalse h => isFalse (fun hc => h (by injection hc))
  | .error a, .error b =>
    match decEq a b with
    | isTrue h => isTrue (by rw [h])
    | isFalse h => isFalse (fun hc => h (by injection hc))
  | .ok _, .error _ => isFalse (fun hc => by injection hc)
  | .error _, .ok _ => isFalse (fun hc => by injection hc)

mutual

/-- Names collected by `GetAllNames` from an expression: `visit_Name`
records the identifier, all other nodes are traversed generically. -/
def exprNames : PExpr → List String
  | .nameE id => [id]
  | .constE _ => []
  | .binOpE lhs rhs => exprNames lhs ++ exprNames rhs
  | .subscriptE value index => exprNames value ++ exprNames index
  | .attributeE value _ => exprNames value
  | .tupleE elts => exprNamesList elts
  | .callE func args => exprNames func ++ exprNamesList args

def exprNamesList : List PExpr → List String
  | [] => []
  | e :: es => exprNames e ++ exprNamesList es

end

mutual

/-- Names collected by `GetAllNames` from a statement.  Its
`visit_FunctionDef` only descends into the default argument expressions;
every other statement is traversed generically in field order. -/
def stmtNames : PStmt → List String
  | .assign targets value => exprNamesList targets ++ exprNames value
  | .augAssign target value => exprNames target ++ exprNames value
  | .functionDef _ defaults _ => exprNamesList defaults
  | .forStmt target iter body => exprNames target ++ exprNames iter ++ stmtNamesList body
  | .exprStmt value => exprNames value

def stmtNamesList : List PStmt → List String
  | [] => []
  | s :: ss => stmtNames s ++ stmtNamesList ss

end

/-- One iteration of the `for target_node in node.targets` loop of
`PreCheck.visit_Assign`: subscripts are skipped; a tuple target first has
its `ast.Name` elements added to the safe set; then the target is added
if it is an `ast.Name`, and otherwise `UNEXPECTED_STATES` is raised
(note that a tuple target reaches the `raise` because the `ast.Name`
test is not an `elif`). -/
def visitAssignTarget (safeSet : List String) (targetNode : PExpr) :
    Except UnexpectedState (List String) :=
  match targetNode with
  | .subscriptE _ _ => .ok safeSet
  | t =>
    let safeSet :=
      match t with
      | .tupleE elts =>
        elts.foldl
          (fun acc e => match e with | .nameE id => insertStr acc id | _ => acc)
          safeSet
      | _ => safeSet
    match t with
    | .nameE id => .ok (insertStr safeSet id)
    | _ => .error ⟨"Precheck", "visit_Assign"⟩

def visitAssignTargets (safeSet : List String) :
    List PExpr → Except UnexpectedState (List String)
  | [] => .ok safeSet
  | t :: ts => (visitAssignTarget safeSet t).bind (fun s => visitAssignTargets s ts)

/-- Elements of a tuple target of `PreCheck.visit_For`: each element must
be an `ast.Name`, anything else raises. -/
def visitForTupleElts (safeSet : List String) :
    List PExpr → Except UnexpectedState (List String)
  | [] => .ok safeSet
  | .nameE id :: rest => visitForTupleElts (insertStr safeSet id) rest
  | _ :: _ => .error ⟨"Precheck", "visit_For"⟩

mutual

/-- The `PreCheck` visitor dispatch for one statement.  Statements with no
dedicated `visit_` method (here: bare expression statements) fall through
to `generic_visit`, which touches no assignment machinery and leaves the
safe set unchanged. -/
def visitStmt (safeSet : List String) : PStmt → Except UnexpectedState (List String)
  | .assign targets _ => visitAssignTargets safeSet targets
  | .augAssign target _ =>
    match target with
    | .subscriptE _ _ => .ok safeSet
    | .nameE id => .ok (insertStr safeSet id)
    | _ => .error ⟨"Precheck", "visit_AugAssign"⟩
  | .functionDef name _ _ => .ok (insertStr safeSet name)
  | .forStmt target _ body =>
    (match target with
      | .tupleE elts => visitForTupleElts safeSet elts
      | .nameE id => Except.ok (insertStr safeSet id)
      | _ => Except.error ⟨"Update", "visit_For"⟩).bind
      (fun s => visitStmtList s body)
  | .exprStmt _ => .ok safeSet

def visitStmtList (safeSet : List String) : List PStmt → Except UnexpectedState (List String)
  | [] => .ok safeSet
  | s :: ss => (visitStmt safeSet s).bind (fun acc => visitStmtList acc ss)

end

/-- The body of `PreCheck.__call__`: for each top-level statement, first
visit it (updating the safe set, possibly raising), then add to the check
set every collected name that is in the known-global `name_set` but not
in the safe set. -/
def precheckAux (nameSet : List String) (safeSet checkSet : List String) :
    List PStmt → Except UnexpectedState (List String)
  | [] => .ok checkSet
  | node :: rest =>
    (visitStmt safeSet node).bind (fun safeSet2 =>
      let checkSet2 := (stmtNames node).foldl
        (fun cs n => if n ∈ nameSet ∧ n ∉ safeSet2 then insertStr cs n else cs)
        checkSet
      precheckAux nameSet safeSet2 checkSet2 rest)

/-- Top-level `precheck(module_node, name_set)`: fresh walker state, then
`PreCheck.__call__` over the module body. -/
def precheck (moduleBody : List PStmt) (nameSet : List String) :
    Except UnexpectedState (List String) :=
  precheckAux nameSet [] [] moduleBody

/-- Abbreviation for the per-statement check-set update of
`PreCheck.__call__`. -/
def checkFold (nameSet safeSet : List String) (names cs : List String) : List String :=
  names.foldl (fun cs n => if n ∈ nameSet ∧ n ∉ safeSet then insertStr cs n else cs) cs

theorem checkFold_mem_of_mem (nameSet safeSet names cs : List String) (n : String)
    (h : n ∈ cs) : n ∈ checkFold nameSet safeSet names cs := by
  induction names generalizing cs with
  | nil => exact h
  | cons m rest ih =>
    unfold checkFold at *
    simp only [List.foldl_cons]
    apply ih
    by_cases hc : m ∈ nameSet ∧ m ∉ safeSet
    · simp only [if_pos hc]
      exact mem_insertStr_of_mem _ _ _ h
    · simp only [if_neg hc]
      exact h

theorem checkFold_mem_target (nameSet safeSet names cs : List String) (n : String)
    (hn : n ∈ names) (h1 : n ∈ nameSet) (h2 : n ∉ safeSet) :
    n ∈ checkFold nameSet safeSet names cs := by
  induction names generalizing cs with
  | nil => cases hn
  | cons m rest ih =>
    unfold checkFold at *
    simp only [List.foldl_cons]
    rcases List.mem_cons.mp hn with hEq | hMem
    · subst hEq
      simp only [if_pos (And.intro h1 h2)]
      exact checkFold_mem_of_mem _ _ _ _ _ (mem_insertStr_self _ _)
    · exact ih _ hMem

theorem precheckAux_mono (stmts : List PStmt) (nameSet : List String) :
    ∀ (safeSet cs res : List String),
      precheckAux nameSet safeSet cs stmts = .ok res →
      ∀ n, n ∈ cs → n ∈ res := by
  induction stmts with
  | nil =>
    intro safeSet cs res h n hn
    simp only [precheckAux] at h
    cases h
    exact hn
  | cons node rest ih =>
    intro safeSet cs res h n hn
    simp only [precheckAux] at h
    cases hv : visitStmt safeSet node with
    | error e => rw [hv] at h; cases h
    | ok safeSet2 =>
      rw [hv] at h
      simp only [Except.bind] at h
      exact ih safeSet2 _ res h n
        (checkFold_mem_of_mem nameSet safeSet2 (stmtNames node) cs n hn)

theorem precheckAux_complete (stmts : List PStmt) (nameSet : List String) :
    ∀ (safeSet cs res : List String),
      precheckAux nameSet safeSet cs stmts = .ok res →
      ∀ (i : Nat) (hi : i < stmts.length) (n : String) (s : List String),
        n ∈ nameSet → n ∈ stmtNames (stmts.get ⟨i, hi⟩) →
        visitStmtList safeSet (stmts.take (i + 1)) = .ok s → n ∉ s →
        n ∈ res := by
  induction stmts with
  | nil =>
    intro safeSet cs res _ i hi
    exact absurd hi (Nat.not_lt_zero i)
  | cons node rest ih =>
    intro safeSet cs res h i hi n s h1 h2 h3 h4
    simp only [precheckAux] at h
    cases hv : visitStmt safeSet node with
    | error e => rw [hv] at h; cases h
    | ok safeSet2 =>
      rw [hv] at h
      simp only [Except.bind] at h
      cases i with
      | zero =>
        simp only [List.take, visitStmtList, hv, Except.bind] at h3
        injection h3 with hEq
        subst hEq
        exact precheckAux_mono rest nameSet safeSet2 _ res h n
          (checkFold_mem_target nameSet safeSet2 (stmtNames node) cs n h2 h1 h4)
      | succ i2 =>
        simp only [List.take, visitStmtList, hv, Except.bind] at h3
        exact ih safeSet2 _ res h i2 (Nat.lt_of_succ_lt_succ hi) n s h1 h2 h3 h4

/-- Claim C2 (amended): precheck defers to full resolution (adds to
`check_set`) every known-global name that a top-level statement
references while the name is not yet in the safe set after that
statement has been visited.  (The original claim demanded this for every
name read before being freshly bound; the code, however, adds assignment
and augmented-assignment `ast.Name` targets to the safe set while
visiting the statement, before the statement's referenced names are
checked, so a name whose only binding in the unit is an
augmented-assignment target is treated as safe and does not appear in
`check_set`.) -/
theorem claim_C2_amended (body : List PStmt) (nameSet res : List String)
    (hRun : precheck body nameSet = .ok res)
    (i : Nat) (hi : i < body.length) (n : String) (s : List String)
    (hGlobal : n ∈ nameSet) (hRead : n ∈ stmtNames (body.get ⟨i, hi⟩))
    (hSafe : visitStmtList [] (body.take (i + 1)) = .ok s) (hNotSafe : n ∉ s) :
    n ∈ res :=
  precheckAux_complete body nameSet [] [] res hRun i hi n s hGlobal hRead hSafe hNotSafe

/-- Witness for `claim_C2_amended` at the one-statement unit reading the
known global `x` (`logging.info(x)`-style bare expression). -/
theorem claim_C2_amended_witness :
    precheck [PStmt.exprStmt (PExpr.nameE "x")] ["x"] = .ok ["x"] ∧
      "x" ∈ (["x"] : List String) :=
  ⟨by decide,
    claim_C2_amended [PStmt.exprStmt (PExpr.nameE "x")] ["x"] ["x"] (by decide)
      0 (by decide) "x" [] (by decide) (by decide) (by decide) (by decide)⟩

/-- Counterexample to claim C2 as stated: in the unit whose single
statement is `x += 1` with `x` a known global, the augmented-assignment
target reads the old (possibly stale) value of `x`, yet precheck returns
an empty `check_set`: `x` is added to the safe set by `visit_AugAssign`
before the statement's names are compared against it, so it never
reaches `check_set`. -/
theorem claim_C2_counterexample :
    precheck [PStmt.augAssign (PExpr.nameE "x") (PExpr.constE 1)] ["x"] =
        .ok [] ∧
      "x" ∉ ([] : List String) := by
  decide

/-- Claim C3 evaluated at the failing input `a, b = 3, 4`: every target
is a tuple of simple names — a shape the walker's own comments and error
message (`Expect to be ast.Tuple or ast.Name`) declare modeled — yet
`visit_Assign` raises `UNEXPECTED_STATES` because the `ast.Name` test
after the tuple handling is not an `elif`: the tuple target falls into
the `else` branch after its element names were already added to the safe
set. -/
theorem claim_C3_code_eval :
    precheck
        [PStmt.assign [PExpr.tupleE [PExpr.nameE "a", PExpr.nameE "b"]]
          (PExpr.tupleE [PExpr.constE 3, PExpr.constE 4])] [] =
      .error ⟨"Precheck", "visit_Assign"⟩ := by
  decide

/-! ### Embedding of `nbsafety/data_model/scope.py`

Scopes form a tree through `parent_scope` links; a `NamespaceScope`
additionally carries a subscript member table, the keys of the bound live
object's per-instance `__dict__`, and an optional `cloned_from` origin
scope.  Symbol identity (Python object identity of a `DataSymbol`) is
modelled by an explicit `symId` field. -/

/-- Keys of scope member tables (`SupportedIndexType`): attribute names
are strings, subscript indices may also be integers. -/
inductive SKey where
  | strK (s : String)
  | intK (n : Int)
  deriving DecidableEq, Repr

inductive DataSymbolType where
  | DEFAULT
  | SUBSCRIPT
  | FUNCTION
  | CLASS
  | IMPORT
  | ANONYMOUS
  deriving DecidableEq, Repr

structure DataSymbol where
  symId : Nat
  name : SKey
  symbolType : DataSymbolType
  objId : Nat
  cachedObjId : Nat
  parents : List Nat
  stmtNode : Nat
  definedCellNum : Nat
  deriving DecidableEq, Repr

/-- Modelled from the spec: `DataSymbol.is_subscript` (the class lives in
`data_model/data_symbol.py`, which is not among the sources here) is the
"subscript-or-attribute flag" of the symbol's identity, determined by its
kind. -/
def DataSymbol.isSubscript (d : DataSymbol) : Bool :=
  d.symbolType = .SUBSCRIPT

/-- Modelled from the spec: `DataSymbol.update_obj_ref(obj,
refresh_cached=False)` rebinds the symbol to the new runtime object
identity; with `refresh_cached=False` the previously cached identity is
kept. -/
def DataSymbol.updateObjRef (d : DataSymbol) (objId : Nat) : DataSymbol :=
  { d with objId := objId }

/-- Modelled from the spec: `DataSymbol.update_stmt_node` records the
statement that (re)defined the symbol. -/
def DataSymbol.updateStmtNode (d : DataSymbol) (stmt : Nat) : DataSymbol :=
  { d with stmtNode := stmt }

/-- Modelled from the spec (§4.1 `update_deps`): on `overwrite` the parent
set is replaced by the supplied dependency set and `defined_at` is bumped
to the current cell counter; otherwise the new dependencies are unioned
into the existing parents.  (Propagation to dependents is outside the
claims verified here.) -/
def DataSymbol.updateDeps (d : DataSymbol) (deps : List Nat) (overwrite : Bool)
    (cellCtr : Nat) : DataSymbol :=
  if overwrite then { d with parents := deps, definedCellNum := cellCtr }
  else { d with parents := d.parents ++ deps.filter (fun p => ¬ p ∈ d.parents) }

/-- Association-list lookup for a member table (Python dict `.get`). -/
def lookupTbl (tbl : List (SKey × DataSymbol)) (k : SKey) : Option DataSymbol :=
  (tbl.find? (fun p => decide (p.1 = k))).map Prod.snd

/-- Association-list update-or-insert preserving insertion order (Python
dict item assignment). -/
def assocSet (tbl : List (SKey × DataSymbol)) (k : SKey) (v : DataSymbol) :
    List (SKey × DataSymbol) :=
  if (tbl.find? (fun p => decide (p.1 = k))).isSome then
    tbl.map (fun p => if p.1 = k then (k, v) else p)
  else tbl ++ [(k, v)]

/-- The scope tree.  `plain` is class `Scope` (one `_data_symbol_by_name`
table), `nsScope` is class `NamespaceScope` (attribute table, subscript
table, the bound object's `__dict__` keys, `cloned_from`, parent). -/
inductive SScope where
  | plain (scopeName : String) (tbl : List (SKey × DataSymbol))
      (parent : Option SScope)
  | nsScope (scopeName : String) (tbl : List (SKey × DataSymbol))
      (subTbl : List (SKey × DataSymbol)) (objDictKeys : List String)
      (clonedFrom : Option SScope) (parent : Option SScope)
  deriving Repr

/-- Property `Scope.is_namespace_scope`. -/
def SScope.isNamespaceScope : SScope → Bool
  | .plain _ _ _ => false
  | .nsScope _ _ _ _ _ _ => true

/-- Property `Scope.is_global` (`parent_scope is None`). -/
def SScope.isGlobal : SScope → Bool
  | .plain _ _ none => true
  | .plain _ _ (some _) => false
  | .nsScope _ _ _ _ _ none => true
  | .nsScope _ _ _ _ _ (some _) => false

/-- Property `Scope.is_globally_accessible`: global, or a namespace scope
whose parent is globally accessible. -/
def SScope.isGloballyAccessible : SScope → Bool
  | .plain _ _ none => true
  | .plain _ _ (some _) => false
  | .nsScope _ _ _ _ _ none => true
  | .nsScope _ _ _ _ _ (some p) => p.isGloballyAccessible

/-- Method `Scope.data_symbol_by_name(is_subscript)`: a plain scope
raises `ValueError` for subscripts (`none` here); a namespace scope
dispatches between its two member tables. -/
def SScope.dataSymbolByName : SScope → Bool → Option (List (SKey × DataSymbol))
  | .plain _ tbl _, false => some tbl
  | .plain _ _ _, true => none
  | .nsScope _ tbl subTbl _ _ _, isSub => some (if isSub then subTbl else tbl)

/-- Field accessor for `NamespaceScope.cloned_from` (a plain scope has
none). -/
def SScope.clonedFromOf : SScope → Option SScope
  | .plain _ _ _ => none
  | .nsScope _ _ _ _ cf _ => cf

/-- Method `lookup_data_symbol_by_name_this_indentation`.  The plain
`Scope` version ignores the keyword arguments and reads its single table.
The `NamespaceScope` override takes `is_subscript` (`none` models the
Python default `None`: attribute table first, then subscript table) and
`skip_cloned_lookup`; on a miss it falls back to `cloned_from` provided
`is_subscript` is not `True`, the name is a string, and the name is not a
key of the live object's `__dict__`. -/
def SScope.lookupThisIndentation :
    SScope → SKey → Option Bool → Bool → Option DataSymbol
  | .plain _ tbl _, name, _, _ => lookupTbl tbl name
  | .nsScope _ tbl subTbl objDictKeys clonedFrom _, name, isSub, skipCloned =>
    let ret : Option DataSymbol :=
      match isSub with
      | none =>
        match lookupTbl tbl name with
        | some r => some r
        | none => lookupTbl subTbl name
      | some true => lookupTbl subTbl name
      | some false => lookupTbl tbl name
    match ret with
    | some r => some r
    | none =>
      match clonedFrom with
      | none => none
      | some cf =>
        if skipCloned then none
        else if isSub = some true then none
        else
          match name with
          | .strK s =>
            if s ∈ objDictKeys then none
            else cf.lookupThisIndentation (.strK s) isSub false
          | .intK _ => none

/-- Property `Scope.non_namespace_parent_scope`: `None` for the global
scope; a namespace-scope parent is skipped recursively; otherwise the
parent itself. -/
def SScope.nonNamespaceParentScope : SScope → Option SScope
  | .plain _ _ none => none
  | .plain _ _ (some p) =>
    if p.isNamespaceScope then p.nonNamespaceParentScope else some p
  | .nsScope _ _ _ _ _ none => none
  | .nsScope _ _ _ _ _ (some p) =>
    if p.isNamespaceScope then p.nonNamespaceParentScope else some p

theorem sizeOf_lt_of_nonNamespaceParentScope :
    ∀ (s p : SScope), s.nonNamespaceParentScope = some p → sizeOf p < sizeOf s
  | .plain _ _ none, p, h => by simp [SScope.nonNamespaceParentScope] at h
  | .plain nm tbl (some q), p, h => by
    simp only [SScope.nonNamespaceParentScope] at h
    by_cases hq : q.isNamespaceScope
    · rw [if_pos hq] at h
      have := sizeOf_lt_of_nonNamespaceParentScope q p h
      have h2 : sizeOf q < sizeOf (SScope.plain nm tbl (some q)) := by
        simp
        omega
      omega
    · rw [if_neg hq] at h
      cases h
      simp
      omega
  | .nsScope _ _ _ _ _ none, p, h => by simp [SScope.nonNamespaceParentScope] at h
  | .nsScope nm tbl subTbl dk cf (some q), p, h => by
    simp only [SScope.nonNamespaceParentScope] at h
    by_cases hq : q.isNamespaceScope
    · rw [if_pos hq] at h
      have := sizeOf_lt_of_nonNamespaceParentScope q p h
      have h2 : sizeOf q < sizeOf (SScope.nsScope nm tbl subTbl dk cf (some q)) := by
        simp
        omega
      omega
    · rw [if_neg hq] at h
      cases h
      simp
      omega

/-- Method `Scope.lookup_data_symbol_by_name`: this scope's
`this_indentation` lookup, then, on a miss, the same lookup on the
non-namespace parent scope. -/
def SScope.lookupDataSymbolByName (s : SScope) (name : SKey) : Option DataSymbol :=
  match s.lookupThisIndentation name none false with
  | some r => some r
  | none =>
    match h : s.nonNamespaceParentScope with
    | none => none
    | some p => p.lookupDataSymbolByName name
termination_by sizeOf s
decreasing_by exact sizeOf_lt_of_nonNamespaceParentScope s p h

/-- The chain of strict ancestors of a scope along `parent_scope`. -/
def SScope.strictAncestors : SScope → List SScope
  | .plain _ _ none => []
  | .plain _ _ (some p) => p :: p.strictAncestors
  | .nsScope _ _ _ _ _ none => []
  | .nsScope _ _ _ _ _ (some p) => p :: p.strictAncestors

/-- First-hit `this_indentation` lookup along a list of scopes. -/
def chainLookup (name : SKey) : List SScope → Option DataSymbol
  | [] => none
  | s :: rest =>
    match s.lookupThisIndentation name none false with
    | some r => some r
    | none => chainLookup name rest

theorem ancestors_filter_eq :
    ∀ s : SScope,
      (s.strictAncestors.filter (fun a => ¬ a.isNamespaceScope)) =
        (match s.nonNamespaceParentScope with
          | none => []
          | some p => p :: p.strictAncestors.filter (fun a => ¬ a.isNamespaceScope))
  | .plain _ _ none => by simp [SScope.strictAncestors, SScope.nonNamespaceParentScope]
  | .plain nm tbl (some p) => by
    by_cases hp : p.isNamespaceScope
    · have h1 : (SScope.plain nm tbl (some p)).strictAncestors.filter
          (fun a => ¬ a.isNamespaceScope) =
          p.strictAncestors.filter (fun a => ¬ a.isNamespaceScope) := by
        simp [SScope.strictAncestors, List.filter_cons, hp]
      have h2 : (SScope.plain nm tbl (some p)).nonNamespaceParentScope =
          p.nonNamespaceParentScope := by
        simp [SScope.nonNamespaceParentScope, hp]
      rw [h1, h2]
      exact ancestors_filter_eq p
    · simp [SScope.strictAncestors, SScope.nonNamespaceParentScope,
        List.filter_cons, hp]
  | .nsScope _ _ _ _ _ none => by
    simp [SScope.strictAncestors, SScope.nonNamespaceParentScope]
  | .nsScope nm tbl subTbl dk cf (some p) => by
    by_cases hp : p.isNamespaceScope
    · have h1 : (SScope.nsScope nm tbl subTbl dk cf (some p)).strictAncestors.filter
          (fun a => ¬ a.isNamespaceScope) =
          p.strictAncestors.filter (fun a => ¬ a.isNamespaceScope) := by
        simp [SScope.strictAncestors, List.filter_cons, hp]
      have h2 : (SScope.nsScope nm tbl subTbl dk cf (some p)).nonNamespaceParentScope =
          p.nonNamespaceParentScope := by
        simp [SScope.nonNamespaceParentScope, hp]
      rw [h1, h2]
      exact ancestors_filter_eq p
    · simp [SScope.strictAncestors, SScope.nonNamespaceParentScope,
        List.filter_cons, hp]

theorem lookup_eq_chainLookup (s : SScope) (name : SKey) :
    s.lookupDataSymbolByName name =
      chainLookup name
        (s :: s.strictAncestors.filter (fun a => ¬ a.isNamespaceScope)) := by
  rw [SScope.lookupDataSymbolByName, chainLookup]
  cases hthis : s.lookupThisIndentation name none false with
  | some r => rfl
  | none =>
    rw [ancestors_filter_eq s]
    cases hp : s.nonNamespaceParentScope with
    | none => simp [chainLookup]
    | some p => exact lookup_eq_chainLookup p name
termination_by sizeOf s
decreasing_by exact sizeOf_lt_of_nonNamespaceParentScope s p hp

/-- Claim C7: name lookup consults this scope's own table (including, for
a clone, its `cloned_from` fallback) and then only the strict ancestors
that remain after every namespace scope on the parent chain has been
skipped; in particular no namespace-scope strict ancestor — a fortiori no
non-global one — is ever consulted, so the result is never a symbol
stored in such an ancestor's member tables. -/
theorem claim_C7 (s : SScope) (name : SKey) :
    s.lookupDataSymbolByName name =
        chainLookup name
          (s :: s.strictAncestors.filter (fun a => ¬ a.isNamespaceScope)) ∧
      ∀ a ∈ s.strictAncestors, a.isNamespaceScope →
        a ∉ s.strictAncestors.filter (fun a => ¬ a.isNamespaceScope) := by
  refine ⟨lookup_eq_chainLookup s name, ?_⟩
  intro a _ hns hmem
  have := List.of_mem_filter hmem
  simp [hns] at this

/-- Witness for `claim_C7` at a concrete scope: a function scope nested
inside a namespace scope whose table holds `x`; the lookup skips the
namespace ancestor and finds the global `x` instead. -/
theorem claim_C7_witness :
    (SScope.lookupDataSymbolByName
        (.plain "f" []
          (some (.nsScope "ns" [(.strK "x", ⟨5, .strK "x", .DEFAULT, 0, 0, [], 0, 0⟩)]
            [] [] none
            (some (.plain "<module>"
              [(.strK "x", ⟨7, .strK "x", .DEFAULT, 0, 0, [], 0, 0⟩)] none)))))
        (.strK "x")) =
      some ⟨7, .strK "x", .DEFAULT, 0, 0, [], 0, 0⟩ :=
  ((claim_C7
      (.plain "f" []
        (some (.nsScope "ns" [(.strK "x", ⟨5, .strK "x", .DEFAULT, 0, 0, [], 0, 0⟩)]
          [] [] none
          (some (.plain "<module>"
            [(.strK "x", ⟨7, .strK "x", .DEFAULT, 0, 0, [], 0, 0⟩)] none)))))
      (.strK "x")).1).trans (by decide)

/-- Claim C8: on a clone (a `NamespaceScope` with `cloned_from` set), a
default-mode (`is_subscript=None`) lookup of an attribute-style string
name consults the scope's own attribute table first (an instance
attribute shadows the class attribute), then its own subscript table,
and falls back to `cloned_from` only when both member tables miss the
name and the name is not a key of the live object's per-instance
`__dict__` (in which case the result is `None` — the instance owns the
attribute even though no symbol models it yet). -/
theorem claim_C8 (nm : String) (tbl subTbl : List (SKey × DataSymbol))
    (objDictKeys : List String) (cf : SScope) (parent : Option SScope)
    (n : String) :
    (∀ d, lookupTbl tbl (.strK n) = some d →
        (SScope.nsScope nm tbl subTbl objDictKeys (some cf) parent).lookupThisIndentation
            (.strK n) none false = some d) ∧
      (∀ d, lookupTbl tbl (.strK n) = none → lookupTbl subTbl (.strK n) = some d →
        (SScope.nsScope nm tbl subTbl objDictKeys (some cf) parent).lookupThisIndentation
            (.strK n) none false = some d) ∧
      (lookupTbl tbl (.strK n) = none → lookupTbl subTbl (.strK n) = none →
        n ∈ objDictKeys →
        (SScope.nsScope nm tbl subTbl objDictKeys (some cf) parent).lookupThisIndentation
            (.strK n) none false = none) ∧
      (lookupTbl tbl (.strK n) = none → lookupTbl subTbl (.strK n) = none →
        n ∉ objDictKeys →
        (SScope.nsScope nm tbl subTbl objDictKeys (some cf) parent).lookupThisIndentation
            (.strK n) none false = cf.lookupThisIndentation (.strK n) none false) := by
  refine ⟨?_, ?_, ?_, ?_⟩
  · intro d hd
    simp [SScope.lookupThisIndentation, hd]
  · intro d h1 h2
    simp [SScope.lookupThisIndentation, h1, h2]
  · intro h1 h2 h3
    simp [SScope.lookupThisIndentation, h1, h2, h3]
  · intro h1 h2 h3
    simp [SScope.lookupThisIndentation, h1, h2, h3]

/-- Witness for `claim_C8`: an instance namespace whose attribute table
holds `a`; the lookup returns the instance symbol rather than consulting
the class namespace. -/
theorem claim_C8_witness :
    (SScope.nsScope "inst" [(.strK "a", ⟨3, .strK "a", .DEFAULT, 0, 0, [], 0, 0⟩)]
          [] [] (some (.nsScope "Foo" [(.strK "a", ⟨1, .strK "a", .DEFAULT, 0, 0, [], 0, 0⟩)]
            [] [] none none)) none).lookupThisIndentation
        (.strK "a") none false =
      some ⟨3, .strK "a", .DEFAULT, 0, 0, [], 0, 0⟩ :=
  (claim_C8 "inst" [(.strK "a", ⟨3, .strK "a", .DEFAULT, 0, 0, [], 0, 0⟩)] [] []
      (.nsScope "Foo" [(.strK "a", ⟨1, .strK "a", .DEFAULT, 0, 0, [], 0, 0⟩)] [] [] none none)
      none "a").1
    ⟨3, .strK "a", .DEFAULT, 0, 0, [], 0, 0⟩ (by decide)

/-- Insert into a list-as-set of symbol ids (Python `set.add` on a
dependency set). -/
def insertNat (s : List Nat) (x : Nat) : List Nat :=
  if x ∈ s then s else s ++ [x]

theorem mem_insertNat_self (s : List Nat) (x : Nat) : x ∈ insertNat s x := by
  unfold insertNat
  by_cases h : x ∈ s <;> simp [h]

theorem mem_insertNat_of_mem (s : List Nat) (x y : Nat) (h : y ∈ s) :
    y ∈ insertNat s x := by
  unfold insertNat
  by_cases hx : x ∈ s <;> simp [hx, h]

/-- Static method `Scope._resolve_symbol_type`: fixed precedence
function-def > import > class > subscript > anonymous > default, with the
`assert` contract violations modelled as `none`.  `class_scope` is
modelled by whether it was passed (`is not None`). -/
def resolveSymbolType
    (overwrite isSubscript isFunctionDef isImport isAnonymous classScope : Bool) :
    Option DataSymbolType :=
  if classScope ∧ (isFunctionDef ∨ isImport) then none
  else if isFunctionDef then
    if overwrite ∧ ¬ isSubscript then some .FUNCTION else none
  else if isImport then
    if overwrite ∧ ¬ isSubscript then some .IMPORT else none
  else if classScope then
    if overwrite ∧ ¬ isSubscript then some .CLASS else none
  else if isSubscript then some .SUBSCRIPT
  else if isAnonymous then some .ANONYMOUS
  else some .DEFAULT

/-- Method `put`: a plain `Scope` stores into its single table; a
`NamespaceScope` dispatches on the value's subscript flag and raises
`TypeError` (`none`) for a non-string attribute key. -/
def SScope.putSym (s : SScope) (name : SKey) (val : DataSymbol) : Option SScope :=
  match s with
  | .plain nm tbl par => some (.plain nm (assocSet tbl name val) par)
  | .nsScope nm tbl subTbl dk cf par =>
    if val.isSubscript then some (.nsScope nm tbl (assocSet subTbl name val) dk cf par)
    else
      match name with
      | .strK _ => some (.nsScope nm (assocSet tbl name val) subTbl dk cf par)
      | .intK _ => none

/-- Write-back of an in-place `DataSymbol` mutation: in Python the member
table already references the mutated object, so the pure embedding
updates the entry in the table selected by the symbol's subscript flag
(the single table for a plain `Scope`). -/
def SScope.setEntryIn (s : SScope) (isSub : Bool) (k : SKey) (v : DataSymbol) : SScope :=
  match s with
  | .plain nm tbl par => .plain nm (assocSet tbl k v) par
  | .nsScope nm tbl subTbl dk cf par =>
    if isSub then .nsScope nm tbl (assocSet subTbl k v) dk cf par
    else .nsScope nm (assocSet tbl k v) subTbl dk cf par

/-- Lookup of `name` on this scope's `cloned_from` origin (the `new_dep`
of `_upsert_data_symbol_for_name_inner`), reduced to its symbol id. -/
def SScope.cloneDep (s : SScope) (name : SKey) : Option Nat :=
  match s.clonedFromOf with
  | some cf =>
    match cf.lookupThisIndentation name (some false) false with
    | some newDep => some newDep.symId
    | none => none
  | none => none

/-- The clone-dependency augmentation at the end of
`Scope._upsert_data_symbol_for_name_inner`: if this scope is a clone
(an instance namespace) and the kind is default, the corresponding member
of the origin scope, if present, is added to the dependency set. -/
def SScope.newDeps (s : SScope) (name : SKey) (deps : List Nat)
    (symbolType : DataSymbolType) : List Nat :=
  if s.isNamespaceScope ∧ symbolType = .DEFAULT then
    match s.cloneDep name with
    | some depId => insertNat deps depId
    | none => deps
  else deps

/-- The tail of `Scope._upsert_data_symbol_for_name_inner` reached when no
in-place update happens: augment the dependency set via the clone origin,
create a fresh `DataSymbol` (`freshSymId` models the fresh Python object
identity) and `put` it into the scope. -/
def SScope.mkNewDataSymbol (s : SScope) (name : SKey) (objId : Nat) (deps : List Nat)
    (symbolType : DataSymbolType) (stmt : Nat) (freshSymId cellCtr : Nat) :
    Option (SScope × DataSymbol × List Nat) :=
  (s.putSym name
      ⟨freshSymId, name, symbolType, objId, objId, s.newDeps name deps symbolType,
        stmt, cellCtr⟩).map
    (fun s2 =>
      (s2,
        ⟨freshSymId, name, symbolType, objId, objId, s.newDeps name deps symbolType,
          stmt, cellCtr⟩,
        s.newDeps name deps symbolType))

/-- Method `Scope._upsert_data_symbol_for_name_inner`.  Returns the
updated scope, the resulting symbol, and the (possibly augmented)
dependency set that the caller will pass to `update_deps`; `none` models
a raised `AssertionError`, `ValueError` or `TypeError`. -/
def SScope.upsertDataSymbolForNameInner (s : SScope) (name : SKey) (objId : Nat)
    (deps : List Nat) (symbolType : DataSymbolType) (stmt : Nat) (implicit : Bool)
    (freshSymId cellCtr : Nat) : Option (SScope × DataSymbol × List Nat) :=
  match s.lookupThisIndentation name (some (symbolType = .SUBSCRIPT)) true with
  | none => s.mkNewDataSymbol name objId deps symbolType stmt freshSymId cellCtr
  | some old =>
    if implicit ∧ symbolType ≠ .ANONYMOUS then none
    else if s.isGloballyAccessible then
      match s.dataSymbolByName old.isSubscript with
      | none => none
      | some tbl2 =>
        if (lookupTbl tbl2 name).isSome ∧ old.symbolType = symbolType then
          some (s.setEntryIn old.isSubscript name
              ((old.updateObjRef objId).updateStmtNode stmt),
            (old.updateObjRef objId).updateStmtNode stmt, deps)
        else
          s.mkNewDataSymbol name objId (insertNat deps old.symId) symbolType stmt
            freshSymId cellCtr
    else s.mkNewDataSymbol name objId deps symbolType stmt freshSymId cellCtr

/-- Method `Scope.upsert_data_symbol_for_name`: resolve the symbol kind
(unless one was passed explicitly), run the inner upsert, then finalize
the result's versions and dependency edges via `update_deps` with the
same (mutated) dependency set, writing the mutation back into the member
table. -/
def SScope.upsertDataSymbolForName (s : SScope) (name : SKey) (objId : Nat)
    (deps : List Nat) (stmt : Nat)
    (overwrite isSubscript isFunctionDef isImport isAnonymous classScope : Bool)
    (symbolTypeOpt : Option DataSymbolType) (implicit : Bool)
    (freshSymId cellCtr : Nat) : Option (SScope × DataSymbol) :=
  (match symbolTypeOpt with
    | some t => some t
    | none =>
      resolveSymbolType overwrite isSubscript isFunctionDef isImport isAnonymous
        classScope).bind
    (fun symbolType =>
      (s.upsertDataSymbolForNameInner name objId deps symbolType stmt implicit
          freshSymId cellCtr).map
        (fun (r : SScope × DataSymbol × List Nat) =>
          (r.1.setEntryIn (r.2.1.updateDeps r.2.2 overwrite cellCtr).isSubscript name
              (r.2.1.updateDeps r.2.2 overwrite cellCtr),
            r.2.1.updateDeps r.2.2 overwrite cellCtr)))

theorem lookupTbl_append_self (tbl : List (SKey × DataSymbol)) (k : SKey) (v : DataSymbol)
    (h : tbl.find? (fun p => decide (p.1 = k)) = none) :
    lookupTbl (tbl ++ [(k, v)]) k = some v := by
  induction tbl with
  | nil => simp [lookupTbl]
  | cons p rest ih =>
    rw [List.find?_cons] at h
    by_cases hk : p.1 = k
    · simp [hk] at h
    · simp only [List.cons_append, lookupTbl, List.find?_cons]
      simp only [hk, decide_eq_false, if_neg]
      exact ih (by simpa [hk] using h)

theorem lookupTbl_map_update (tbl : List (SKey × DataSymbol)) (k : SKey) (v : DataSymbol)
    (h : (tbl.find? (fun p => decide (p.1 = k))).isSome) :
    lookupTbl (tbl.map (fun p => if p.1 = k then (k, v) else p)) k = some v := by
  induction tbl with
  | nil => simp at h
  | cons p rest ih =>
    by_cases hk : p.1 = k
    · simp [lookupTbl, List.find?_cons, hk]
    · rw [List.find?_cons] at h
      simp only [hk, decide_eq_false, if_neg] at h
      simp only [List.map_cons, if_neg hk, lookupTbl, List.find?_cons]
      simp only [hk, decide_eq_false, if_neg]
      exact ih h

theorem lookupTbl_assocSet_self (tbl : List (SKey × DataSymbol)) (k : SKey)
    (v : DataSymbol) : lookupTbl (assocSet tbl k v) k = some v := by
  unfold assocSet
  by_cases hf : (tbl.find? (fun p => decide (p.1 = k))).isSome
  · rw [if_pos hf]
    exact lookupTbl_map_update tbl k v hf
  · rw [if_neg hf]
    exact lookupTbl_append_self tbl k v (Option.not_isSome_iff_eq_none.mp hf)

theorem lookupThisIndentation_setEntryIn (s : SScope) (b : Bool) (k : SKey)
    (v : DataSymbol) (sk : Bool) :
    (s.setEntryIn b k v).lookupThisIndentation k (some b) sk = some v := by
  cases s with
  | plain nm tbl par =>
    cases b <;> cases k <;>
      simp [SScope.setEntryIn, SScope.lookupThisIndentation, lookupTbl_assocSet_self]
  | nsScope nm tbl subTbl dk cf par =>
    cases cf <;> cases b <;> cases k <;>
      simp [SScope.setEntryIn, SScope.lookupThisIndentation, lookupTbl_assocSet_self]

/-- Helper: `this_indentation` lookup on a plain scope reads its single
table whatever the keyword arguments are. -/
theorem lookupThisIndentation_plain (nm : String) (tbl : List (SKey × DataSymbol))
    (par : Option SScope) (name : SKey) (isSub : Option Bool) (sk : Bool) :
    (SScope.plain nm tbl par).lookupThisIndentation name isSub sk = lookupTbl tbl name := by
  cases name <;> cases isSub <;> rfl

theorem optionMatchId (x : Option DataSymbol) :
    (match x with | some r => some r | none => (none : Option DataSymbol)) = x := by
  cases x <;> rfl

/-- Helper: with `skip_cloned_lookup=True` and an explicit `is_subscript`
flag, a namespace-scope `this_indentation` lookup is exactly the lookup in
the member table selected by the flag (no cloned fallback). -/
theorem lookupThisIndentation_skip_eq (nm : String)
    (tbl subTbl : List (SKey × DataSymbol)) (dk : List String)
    (cf par : Option SScope) (name : SKey) (b : Bool) :
    (SScope.nsScope nm tbl subTbl dk cf par).lookupThisIndentation name (some b) true =
      lookupTbl (if b then subTbl else tbl) name := by
  cases cf <;> cases b <;> cases name <;>
    simp [SScope.lookupThisIndentation, optionMatchId]

/-- With `skip_cloned_lookup=True` and an explicit `is_subscript` flag, a
successful this-indentation lookup read its result exactly from the
member table that `data_symbol_by_name` selects for that flag. -/
theorem lookupTbl_of_lookupThisIndentation_skip (s : SScope) (name : SKey) (b : Bool)
    (old : DataSymbol)
    (h : s.lookupThisIndentation name (some b) true = some old) :
    ∀ tbl2, s.dataSymbolByName b = some tbl2 → lookupTbl tbl2 name = some old := by
  intro tbl2 htbl
  cases s with
  | plain nm tbl par =>
    cases b with
    | false =>
      simp only [SScope.dataSymbolByName, Option.some.injEq] at htbl
      rw [← htbl, ← lookupThisIndentation_plain nm tbl par name (some false) true]
      exact h
    | true => simp [SScope.dataSymbolByName] at htbl
  | nsScope nm tbl subTbl dk cf par =>
    have htbl2 : tbl2 = if b then subTbl else tbl := by
      simp only [SScope.dataSymbolByName, Option.some.injEq] at htbl
      exact htbl.symm
    subst htbl2
    rw [← lookupThisIndentation_skip_eq nm tbl subTbl dk cf par name b]
    exact h

theorem DataSymbol.updateDeps_symId (d : DataSymbol) (deps : List Nat) (ow : Bool)
    (c : Nat) : (d.updateDeps deps ow c).symId = d.symId := by
  unfold DataSymbol.updateDeps
  cases ow <;> simp

theorem DataSymbol.updateDeps_symbolType (d : DataSymbol) (deps : List Nat) (ow : Bool)
    (c : Nat) : (d.updateDeps deps ow c).symbolType = d.symbolType := by
  unfold DataSymbol.updateDeps
  cases ow <;> simp

theorem DataSymbol.mem_updateDeps_parents (d : DataSymbol) (deps : List Nat) (ow : Bool)
    (c : Nat) (x : Nat) (hx : x ∈ deps) (hp : x ∈ d.parents) :
    x ∈ (d.updateDeps deps ow c).parents := by
  unfold DataSymbol.updateDeps
  cases ow with
  | false =>
    simp only [Bool.false_eq_true, if_false, List.mem_append]
    exact Or.inl hp
  | true => simpa using hx

theorem mem_newDeps_of_mem (s : SScope) (name : SKey) (deps : List Nat)
    (symbolType : DataSymbolType) (x : Nat) (hx : x ∈ deps) :
    x ∈ s.newDeps name deps symbolType := by
  unfold SScope.newDeps
  by_cases hns : s.isNamespaceScope ∧ symbolType = DataSymbolType.DEFAULT
  · rw [if_pos hns]
    cases hcd : s.cloneDep name with
    | none => exact hx
    | some depId => exact mem_insertNat_of_mem _ _ _ hx
  · rw [if_neg hns]
    exact hx

/-- Claim C6: a successful `upsert_data_symbol_for_name` on a globally
accessible scope where a symbol already exists under the name (found by
the relevant-table lookup with `skip_cloned_lookup=True`) either updates
that very symbol in place — the result carries the old symbol's identity
and the member table still maps the name to it — when the existing kind
equals the resolved kind, or, when the kinds differ, creates and returns
a fresh symbol (carrying the fresh identity `freshSymId`) whose parent
set contains the old symbol as an explicit dependency. -/
theorem claim_C6 (s : SScope) (name : SKey) (objId : Nat) (deps : List Nat)
    (stmt : Nat)
    (overwrite isSubscript isFunctionDef isImport isAnonymous classScope : Bool)
    (freshSymId cellCtr : Nat) (symbolType : DataSymbolType) (old : DataSymbol)
    (s2 : SScope) (d : DataSymbol)
    (hType : resolveSymbolType overwrite isSubscript isFunctionDef isImport
        isAnonymous classScope = some symbolType)
    (hOld : s.lookupThisIndentation name (some (symbolType = .SUBSCRIPT)) true =
        some old)
    (hAcc : s.isGloballyAccessible = true)
    (hRes : s.upsertDataSymbolForName name objId deps stmt overwrite isSubscript
        isFunctionDef isImport isAnonymous classScope none false freshSymId cellCtr =
        some (s2, d)) :
    (old.symbolType = symbolType →
        d.symId = old.symId ∧
        s2.lookupThisIndentation name (some (symbolType = .SUBSCRIPT)) true = some d) ∧
      (old.symbolType ≠ symbolType → d.symId = freshSymId ∧ old.symId ∈ d.parents) := by
  unfold SScope.upsertDataSymbolForName at hRes
  simp only [hType, Option.some_bind] at hRes
  cases hInner : s.upsertDataSymbolForNameInner name objId deps symbolType stmt false
      freshSymId cellCtr with
  | none => simp [hInner] at hRes
  | some r =>
    rw [hInner, Option.map_some'] at hRes
    simp only [Option.some.injEq, Prod.mk.injEq] at hRes
    obtain ⟨hs2, hd⟩ := hRes
    unfold SScope.upsertDataSymbolForNameInner at hInner
    simp only [hOld, hAcc] at hInner
    have hg : ¬ ((false : Bool) = true ∧ symbolType ≠ DataSymbolType.ANONYMOUS) := by
      simp
    rw [if_neg hg, if_pos trivial] at hInner
    constructor
    · -- same kind: in-place update of the existing symbol
      intro hTE
      have hbEq : old.isSubscript = decide (symbolType = DataSymbolType.SUBSCRIPT) := by
        unfold DataSymbol.isSubscript
        rw [hTE]
      cases hTbl : s.dataSymbolByName old.isSubscript with
      | none => simp [hTbl] at hInner
      | some tbl2 =>
        simp only [hTbl] at hInner
        have hbTbl :
            s.dataSymbolByName (decide (symbolType = DataSymbolType.SUBSCRIPT)) =
              some tbl2 := by rw [← hbEq]; exact hTbl
        have hLk : lookupTbl tbl2 name = some old :=
          lookupTbl_of_lookupThisIndentation_skip s name _ old hOld tbl2 hbTbl
        have hMem : (lookupTbl tbl2 name).isSome = true := by rw [hLk]; rfl
        rw [if_pos (And.intro hMem hTE)] at hInner
        simp only [Option.some.injEq] at hInner
        rw [← hInner] at hs2 hd
        have hSubPres :
            ((((old.updateObjRef objId).updateStmtNode stmt).updateDeps deps overwrite
                cellCtr)).isSubscript = old.isSubscript := by
          unfold DataSymbol.isSubscript
          rw [DataSymbol.updateDeps_symbolType]
          unfold DataSymbol.updateObjRef DataSymbol.updateStmtNode
          simp
        constructor
        · rw [← hd, DataSymbol.updateDeps_symId]
          rfl
        · rw [← hd, ← hs2, hSubPres, ← hbEq]
          exact lookupThisIndentation_setEntryIn _ old.isSubscript name _ true
    · -- kind mismatch: fresh symbol depending on the old one
      intro hTNe
      cases hTbl : s.dataSymbolByName old.isSubscript with
      | none => simp [hTbl] at hInner
      | some tbl2 =>
        simp only [hTbl] at hInner
        rw [if_neg (fun hc => hTNe hc.2)] at hInner
        unfold SScope.mkNewDataSymbol at hInner
        cases hPut : s.putSym name
            ⟨freshSymId, name, symbolType, objId, objId,
              s.newDeps name (insertNat deps old.symId) symbolType, stmt, cellCtr⟩ with
        | none => simp [hPut] at hInner
        | some s3 =>
          rw [hPut, Option.map_some'] at hInner
          simp only [Option.some.injEq] at hInner
          rw [← hInner] at hd
          have hOldMem : old.symId ∈
              s.newDeps name (insertNat deps old.symId) symbolType :=
            mem_newDeps_of_mem s name _ symbolType old.symId
              (mem_insertNat_self deps old.symId)
          constructor
          · rw [← hd, DataSymbol.updateDeps_symId]
          · rw [← hd]
            exact DataSymbol.mem_updateDeps_parents _ _ overwrite cellCtr old.symId
              hOldMem hOldMem

/-- Concrete fixtures for the `claim_C6` witness: a global scope holding
one default-kind symbol `x`. -/
def c6Old : DataSymbol := ⟨1, .strK "x", .DEFAULT, 5, 5, [], 0, 0⟩

def c6Scope : SScope := .plain "<module>" [(.strK "x", c6Old)] none

/-- Witness for `claim_C6`: re-upserting `x` with the same (default) kind
returns the symbol with the old identity, updated in place. -/
theorem claim_C6_witness :
    c6Old.symbolType = DataSymbolType.DEFAULT ∧
      (⟨1, .strK "x", .DEFAULT, 9, 5, [], 7, 3⟩ : DataSymbol).symId = c6Old.symId :=
  ⟨rfl,
    ((claim_C6 c6Scope (.strK "x") 9 [] 7 true false false false false false 2 3
          .DEFAULT c6Old
          (.plain "<module>"
            [(.strK "x", ⟨1, .strK "x", .DEFAULT, 9, 5, [], 7, 3⟩)] none)
          ⟨1, .strK "x", .DEFAULT, 9, 5, [], 7, 3⟩ rfl rfl rfl rfl).1 rfl).1⟩

/-! ### Embedding of the namespace collector
(`NotebookSafety._namespace_gc` in `safety.py` together with
`NamespaceScope.clear_namespace` in `scope.py`)

The live `NamespaceScope` objects form an arena (`scopes`, keyed by the
Python object identity `nsId` of the scope object itself); the registry
`namespaces` maps bound-object ids to scope identities; the pending
garbage set holds object ids whose weak references expired. -/

structure GcNamespaceScope where
  nsId : Nat
  objId : Nat
  attrTbl : List (SKey × DataSymbol)
  subTbl : List (SKey × DataSymbol)
  deriving DecidableEq, Repr

structure GcState where
  scopes : List GcNamespaceScope
  namespaces : List (Nat × Nat)
  garbageNamespaceObjIds : List Nat
  deriving DecidableEq, Repr

def registryKeys (namespaces : List (Nat × Nat)) : List Nat :=
  namespaces.map Prod.fst

/-- Python `dict.pop(obj_id, None)`: the found value (if any) and the
registry without that key. -/
def popRegistry (namespaces : List (Nat × Nat)) (objId : Nat) :
    Option Nat × List (Nat × Nat) :=
  match namespaces.find? (fun p => decide (p.1 = objId)) with
  | some p => (some p.2, namespaces.filter (fun q => decide (q.1 ≠ objId)))
  | none => (none, namespaces)

/-- Method `NamespaceScope.clear_namespace(prev_obj_id)`: raises
`ValueError` (`none`) when the namespace is still registered under a
different id; otherwise clears both member tables. -/
def clearNamespace (g : GcNamespaceScope) (prevObjId : Nat)
    (registry : List (Nat × Nat)) : Option GcNamespaceScope :=
  if prevObjId ≠ g.objId ∧ prevObjId ∈ registryKeys registry then none
  else some { g with attrTbl := [], subTbl := [] }

/-- Apply `clear_namespace` to the arena entries with the popped scope's
identity (the in-place table mutation of the Python object). -/
def clearScopesById :
    List GcNamespaceScope → Nat → Nat → List (Nat × Nat) →
      Option (List GcNamespaceScope)
  | [], _, _, _ => some []
  | g :: rest, nsId, prevObjId, registry =>
    match (if g.nsId = nsId then clearNamespace g prevObjId registry else some g) with
    | none => none
    | some g2 =>
      match clearScopesById rest nsId prevObjId registry with
      | none => none
      | some rest2 => some (g2 :: rest2)

/-- One iteration of the `for obj_id in self.garbage_namespace_obj_ids`
loop of `_namespace_gc`: pop the registry entry and, if one was found,
clear the corresponding namespace's member tables. -/
def namespaceGcStep (st : GcState) (objId : Nat) : Option GcState :=
  match popRegistry st.namespaces objId with
  | (none, ns2) => some { st with namespaces := ns2 }
  | (some nsId, ns2) =>
    match clearScopesById st.scopes nsId objId ns2 with
    | none => none
    | some scopes2 => some { st with scopes := scopes2, namespaces := ns2 }

def namespaceGcAux : GcState → List Nat → Option GcState
  | st, [] => some st
  | st, objId :: rest =>
    (namespaceGcStep st objId).bind (fun st2 => namespaceGcAux st2 rest)

/-- Method `NotebookSafety._namespace_gc`: drain the pending garbage set,
then clear it. -/
def namespaceGc (st : GcState) : Option GcState :=
  (namespaceGcAux st st.garbageNamespaceObjIds).map
    (fun st2 => { st2 with garbageNamespaceObjIds := [] })

/-- Property: every arena scope with identity `nsId` has cleared member
tables. -/
def clearedProp (nsId : Nat) (st : GcState) : Prop :=
  ∀ g ∈ st.scopes, g.nsId = nsId → g.attrTbl = [] ∧ g.subTbl = []

theorem not_mem_registryKeys_of_find_none (ns : List (Nat × Nat)) (o : Nat)
    (h : ns.find? (fun p => decide (p.1 = o)) = none) : o ∉ registryKeys ns := by
  induction ns with
  | nil => simp [registryKeys]
  | cons p rest ih =>
    rw [List.find?_cons] at h
    by_cases hk : p.1 = o
    · simp [hk] at h
    · simp only [hk, decide_eq_false, if_neg] at h
      simp only [registryKeys, List.map_cons, List.mem_cons]
      intro hc
      rcases hc with hc | hc
      · exact hk hc.symm
      · exact ih (by simpa [hk] using h) hc

theorem popRegistry_not_mem (ns : List (Nat × Nat)) (o : Nat) :
    o ∉ registryKeys (popRegistry ns o).2 := by
  unfold popRegistry
  cases hf : ns.find? (fun p => decide (p.1 = o)) with
  | none => exact not_mem_registryKeys_of_find_none ns o hf
  | some p =>
    simp only [registryKeys, List.mem_map]
    rintro ⟨q, hq, hqk⟩
    have := List.of_mem_filter hq
    simp [hqk] at this

theorem popRegistry_keys_subset (ns : List (Nat × Nat)) (o k : Nat)
    (h : k ∈ registryKeys (popRegistry ns o).2) : k ∈ registryKeys ns := by
  unfold popRegistry at h
  cases hf : ns.find? (fun p => decide (p.1 = o)) with
  | none => rw [hf] at h; exact h
  | some p =>
    rw [hf] at h
    simp only [registryKeys, List.mem_map] at h ⊢
    rcases h with ⟨q, hq, hqk⟩
    exact ⟨q, List.mem_of_mem_filter hq, hqk⟩

theorem popRegistry_entry_preserved (ns : List (Nat × Nat)) (o k v : Nat)
    (hmem : (k, v) ∈ ns) (hne : k ≠ o) : (k, v) ∈ (popRegistry ns o).2 := by
  unfold popRegistry
  cases hf : ns.find? (fun p => decide (p.1 = o)) with
  | none => exact hmem
  | some p =>
    exact List.mem_filter.mpr ⟨hmem, by simpa using hne⟩

theorem popRegistry_keys_nodup (ns : List (Nat × Nat)) (o : Nat)
    (h : (registryKeys ns).Nodup) : (registryKeys (popRegistry ns o).2).Nodup := by
  unfold popRegistry
  cases hf : ns.find? (fun p => decide (p.1 = o)) with
  | none => exact h
  | some p =>
    exact List.Nodup.sublist ((List.filter_sublist ns).map Prod.fst) h

theorem find_of_mem_nodupKeys (ns : List (Nat × Nat)) (o v : Nat)
    (hmem : (o, v) ∈ ns) (hnd : (registryKeys ns).Nodup) :
    ns.find? (fun p => decide (p.1 = o)) = some (o, v) := by
  induction ns with
  | nil => cases hmem
  | cons p rest ih =>
    simp only [registryKeys, List.map_cons, List.nodup_cons] at hnd
    rw [List.find?_cons]
    by_cases hk : p.1 = o
    · simp only [hk, decide_true_eq_true]
      rcases List.mem_cons.mp hmem with hEq | hMem
      · rw [hEq]
      · exfalso
        apply hnd.1
        rw [hk]
        exact List.mem_map.mpr ⟨(o, v), hMem, rfl⟩
    · simp only [hk, decide_eq_false, if_neg]
      rcases List.mem_cons.mp hmem with hEq | hMem
      · exfalso
        apply hk
        rw [← hEq]
      · exact ih hMem hnd.2

theorem clearScopesById_spec (scopes : List GcNamespaceScope) (nsId o : Nat)
    (reg : List (Nat × Nat)) (scopes2 : List GcNamespaceScope)
    (h : clearScopesById scopes nsId o reg = some scopes2) :
    (∀ g2 ∈ scopes2, g2.nsId = nsId → g2.attrTbl = [] ∧ g2.subTbl = []) ∧
      (∀ g2 ∈ scopes2, ∃ g ∈ scopes,
        g2.nsId = g.nsId ∧ (g2 = g ∨ (g2.attrTbl = [] ∧ g2.subTbl = []))) := by
  induction scopes generalizing scopes2 with
  | nil =>
    simp only [clearScopesById, Option.some.injEq] at h
    subst h
    exact ⟨by simp, by simp⟩
  | cons g rest ih =>
    simp only [clearScopesById] at h
    cases hg : (if g.nsId = nsId then clearNamespace g o reg else some g) with
    | none => rw [hg] at h; cases h
    | some g2h =>
      rw [hg] at h
      cases hr : clearScopesById rest nsId o reg with
      | none => rw [hr] at h; cases h
      | some rest2 =>
        rw [hr] at h
        simp only [Option.some.injEq] at h
        subst h
        obtain ⟨ihA, ihB⟩ := ih rest2 hr
        have hHead : g2h.nsId = g.nsId ∧
            (g2h = g ∨ (g2h.attrTbl = [] ∧ g2h.subTbl = [])) ∧
            (g.nsId = nsId → g2h.attrTbl = [] ∧ g2h.subTbl = []) := by
          by_cases hns : g.nsId = nsId
          · rw [if_pos hns] at hg
            unfold clearNamespace at hg
            by_cases hc : o ≠ g.objId ∧ o ∈ registryKeys reg
            · rw [if_pos hc] at hg; cases hg
            · rw [if_neg hc] at hg
              simp only [Option.some.injEq] at hg
              subst hg
              exact ⟨rfl, Or.inr ⟨rfl, rfl⟩, fun _ => ⟨rfl, rfl⟩⟩
          · rw [if_neg hns] at hg
            simp only [Option.some.injEq] at hg
            subst hg
            exact ⟨rfl, Or.inl rfl, fun hcon => absurd hcon hns⟩
        constructor
        · intro g2 hg2 hgid
          rcases List.mem_cons.mp hg2 with hEq | hMem
          · subst hEq
            exact hHead.2.2 (hHead.1 ▸ hgid)
          · exact ihA g2 hMem hgid
        · intro g2 hg2
          rcases List.mem_cons.mp hg2 with hEq | hMem
          · subst hEq
            exact ⟨g, List.mem_cons_self g rest, hHead.1, hHead.2.1⟩
          · obtain ⟨g0, hg0, hrest⟩ := ihB g2 hMem
            exact ⟨g0, List.mem_cons_of_mem g hg0, hrest⟩

/-- Elimination helper for the inner match of `namespaceGcStep`. -/
theorem gcStepMatchElim (x : Option (List GcNamespaceScope)) (ns2 : List (Nat × Nat))
    (gids : List Nat) (st1 : GcState)
    (h : (match x with
      | none => none
      | some scopes2 => some (GcState.mk scopes2 ns2 gids)) = some st1) :
    ∃ scopes2, x = some scopes2 ∧ st1 = GcState.mk scopes2 ns2 gids := by
  cases x with
  | none => cases h
  | some scopes2 =>
    injection h with h3
    exact ⟨scopes2, rfl, h3.symm⟩

theorem namespaceGcStep_registry (st : GcState) (o : Nat) (st1 : GcState)
    (h : namespaceGcStep st o = some st1) :
    st1.namespaces = (popRegistry st.namespaces o).2 ∧
      st1.garbageNamespaceObjIds = st.garbageNamespaceObjIds := by
  unfold namespaceGcStep at h
  cases hp : popRegistry st.namespaces o with
  | mk f ns2 =>
    rw [hp] at h
    cases f with
    | none =>
      have h2 : some (GcState.mk st.scopes ns2 st.garbageNamespaceObjIds) =
          some st1 := h
      injection h2 with h3
      rw [← h3]
      exact ⟨rfl, rfl⟩
    | some nsId =>
      obtain ⟨scopes2, hc, hst1⟩ :=
        gcStepMatchElim (clearScopesById st.scopes nsId o ns2) ns2
          st.garbageNamespaceObjIds st1 h
      rw [hst1]
      exact ⟨rfl, rfl⟩

theorem namespaceGcStep_removes (st : GcState) (o : Nat) (st1 : GcState)
    (h : namespaceGcStep st o = some st1) : o ∉ registryKeys st1.namespaces := by
  rw [(namespaceGcStep_registry st o st1 h).1]
  exact popRegistry_not_mem st.namespaces o

theorem namespaceGcStep_absent (st : GcState) (o o2 : Nat) (st1 : GcState)
    (h : namespaceGcStep st o = some st1) (ha : o2 ∉ registryKeys st.namespaces) :
    o2 ∉ registryKeys st1.namespaces := by
  rw [(namespaceGcStep_registry st o st1 h).1]
  intro hc
  exact ha (popRegistry_keys_subset st.namespaces o o2 hc)

theorem namespaceGcStep_cleared_preserved (st : GcState) (o : Nat) (st1 : GcState)
    (nsId : Nat) (h : namespaceGcStep st o = some st1) (hcl : clearedProp nsId st) :
    clearedProp nsId st1 := by
  unfold namespaceGcStep at h
  cases hp : popRegistry st.namespaces o with
  | mk f ns2 =>
    rw [hp] at h
    cases f with
    | none =>
      have h2 : some (GcState.mk st.scopes ns2 st.garbageNamespaceObjIds) =
          some st1 := h
      injection h2 with h3
      rw [← h3]
      exact hcl
    | some nsId2 =>
      obtain ⟨scopes2, hc, hst1⟩ :=
        gcStepMatchElim (clearScopesById st.scopes nsId2 o ns2) ns2
          st.garbageNamespaceObjIds st1 h
      rw [hst1]
      intro g2 hg2 hgid
      obtain ⟨g, hg, hid, hcase⟩ := (clearScopesById_spec _ _ _ _ _ hc).2 g2 hg2
      rcases hcase with hEq | hClr
      · rw [hEq]
        exact hcl g hg (hid.symm.trans hgid)
      · exact hClr

theorem namespaceGcStep_establishes (st : GcState) (o : Nat) (st1 : GcState)
    (pr : Nat × Nat) (h : namespaceGcStep st o = some st1)
    (hf : st.namespaces.find? (fun p => decide (p.1 = o)) = some pr) :
    clearedProp pr.2 st1 := by
  have hp : popRegistry st.namespaces o =
      (some pr.2, st.namespaces.filter (fun q => decide (q.1 ≠ o))) := by
    unfold popRegistry
    rw [hf]
  unfold namespaceGcStep at h
  rw [hp] at h
  obtain ⟨scopes2, hc, hst1⟩ :=
    gcStepMatchElim
      (clearScopesById st.scopes pr.2 o
        (st.namespaces.filter (fun q => decide (q.1 ≠ o))))
      (st.namespaces.filter (fun q => decide (q.1 ≠ o)))
      st.garbageNamespaceObjIds st1 h
  rw [hst1]
  intro g2 hg2 hgid
  exact (clearScopesById_spec _ _ _ _ _ hc).1 g2 hg2 hgid

theorem namespaceGcStep_entry (st : GcState) (o : Nat) (st1 : GcState)
    (k v : Nat) (h : namespaceGcStep st o = some st1)
    (hmem : (k, v) ∈ st.namespaces) (hne : k ≠ o) : (k, v) ∈ st1.namespaces := by
  rw [(namespaceGcStep_registry st o st1 h).1]
  exact popRegistry_entry_preserved st.namespaces o k v hmem hne

theorem namespaceGcStep_nodup (st : GcState) (o : Nat) (st1 : GcState)
    (h : namespaceGcStep st o = some st1)
    (hnd : (registryKeys st.namespaces).Nodup) :
    (registryKeys st1.namespaces).Nodup := by
  rw [(namespaceGcStep_registry st o st1 h).1]
  exact popRegistry_keys_nodup st.namespaces o hnd

theorem namespaceGcAux_absent :
    ∀ (gs : List Nat) (st st2 : GcState), namespaceGcAux st gs = some st2 →
      ∀ o, o ∉ registryKeys st.namespaces → o ∉ registryKeys st2.namespaces := by
  intro gs
  induction gs with
  | nil =>
    intro st st2 h o ha
    simp only [namespaceGcAux, Option.some.injEq] at h
    rw [← h]
    exact ha
  | cons o2 rest ih =>
    intro st st2 h o ha
    simp only [namespaceGcAux] at h
    cases hstep : namespaceGcStep st o2 with
    | none => rw [hstep] at h; cases h
    | some st1 =>
      rw [hstep, Option.some_bind] at h
      exact ih st1 st2 h o (namespaceGcStep_absent st o2 o st1 hstep ha)

theorem namespaceGcAux_main :
    ∀ (gs : List Nat) (st st2 : GcState), namespaceGcAux st gs = some st2 →
      gs.Nodup → (registryKeys st.namespaces).Nodup →
      (∀ o ∈ gs, o ∉ registryKeys st2.namespaces) ∧
        (∀ nsId, clearedProp nsId st → clearedProp nsId st2) ∧
        (∀ o v, o ∈ gs → (o, v) ∈ st.namespaces → clearedProp v st2) := by
  intro gs
  induction gs with
  | nil =>
    intro st st2 h _ _
    simp only [namespaceGcAux, Option.some.injEq] at h
    rw [← h]
    exact ⟨by simp, fun _ hc => hc, by simp⟩
  | cons o rest ih =>
    intro st st2 h hnd hknd
    simp only [namespaceGcAux] at h
    cases hstep : namespaceGcStep st o with
    | none => rw [hstep] at h; cases h
    | some st1 =>
      rw [hstep, Option.some_bind] at h
      have hndRest : rest.Nodup := (List.nodup_cons.mp hnd).2
      have hoNotRest : o ∉ rest := (List.nodup_cons.mp hnd).1
      have hknd1 : (registryKeys st1.namespaces).Nodup :=
        namespaceGcStep_nodup st o st1 hstep hknd
      obtain ⟨ihA, ihB, ihC⟩ := ih st1 st2 h hndRest hknd1
      refine ⟨?_, ?_, ?_⟩
      · intro o2 ho2
        rcases List.mem_cons.mp ho2 with hEq | hMem
        · subst hEq
          exact namespaceGcAux_absent rest st1 st2 h o2
            (namespaceGcStep_removes st o2 st1 hstep)
        · exact ihA o2 hMem
      · intro nsId hcl
        exact ihB nsId (namespaceGcStep_cleared_preserved st o st1 nsId hstep hcl)
      · intro o2 v ho2 hmem
        rcases List.mem_cons.mp ho2 with hEq | hMem
        · subst hEq
          have hf : st.namespaces.find? (fun p => decide (p.1 = o2)) = some (o2, v) :=
            find_of_mem_nodupKeys st.namespaces o2 v hmem hknd
          exact ihB v (namespaceGcStep_establishes st o2 st1 (o2, v) hstep hf)
        · have hne : o2 ≠ o := fun hc => hoNotRest (hc ▸ hMem)
          exact ihC o2 v hMem (namespaceGcStep_entry st o st1 o2 v hstep hmem hne)

/-- Claim C9: one `_namespace_gc` pass drains the pending garbage set
(empty afterwards), removes every drained object id from the namespaces
registry, clears the attribute and subscript member tables of each
removed namespace scope, and is idempotent: an immediately repeated call
returns the state unchanged.  (The Python state satisfies the two
well-formedness hypotheses by construction: the garbage set is a set and
the registry a dict, so both are duplicate-free.) -/
theorem claim_C9 (st st2 : GcState) (hRun : namespaceGc st = some st2)
    (hgNodup : st.garbageNamespaceObjIds.Nodup)
    (hkNodup : (registryKeys st.namespaces).Nodup) :
    st2.garbageNamespaceObjIds = [] ∧
      (∀ o ∈ st.garbageNamespaceObjIds, o ∉ registryKeys st2.namespaces) ∧
      (∀ o v, o ∈ st.garbageNamespaceObjIds → (o, v) ∈ st.namespaces →
        ∀ g ∈ st2.scopes, g.nsId = v → g.attrTbl = [] ∧ g.subTbl = []) ∧
      namespaceGc st2 = some st2 := by
  unfold namespaceGc at hRun
  cases hAux : namespaceGcAux st st.garbageNamespaceObjIds with
  | none => rw [hAux] at hRun; cases hRun
  | some st3 =>
    rw [hAux, Option.map_some'] at hRun
    injection hRun with h3
    obtain ⟨hA, hB, hC⟩ := namespaceGcAux_main _ st st3 hAux hgNodup hkNodup
    rw [← h3]
    refine ⟨rfl, ?_, ?_, ?_⟩
    · intro o ho
      exact hA o ho
    · intro o v ho hmem g hg hgid
      exact hC o v ho hmem g hg hgid
    · unfold namespaceGc
      simp [namespaceGcAux]

/-- Witness for `claim_C9`: one registered namespace whose bound object
(id 10) has become garbage; after the pass the registry no longer knows
id 10. -/
theorem claim_C9_witness :
    ([10] : List Nat).Nodup ∧ (10 : Nat) ∉ registryKeys ([] : List (Nat × Nat)) :=
  ⟨by decide,
    (claim_C9
        ⟨[⟨1, 10, [(.strK "a", ⟨0, .strK "a", .DEFAULT, 0, 0, [], 0, 0⟩)], []⟩],
          [(10, 1)], [10]⟩
        ⟨[⟨1, 10, [], []⟩], [], []⟩ (by decide) (by decide) (by decide)).2.1 10
      (by decide)⟩

/-! ### Embedding of `NotebookSafety._precheck_for_stale` (`safety.py`)

The method's effect depends on the engine's symbol-resolution pipeline
only through `_check_cell_and_resolve_symbols`; between a refusal and the
byte-identical resubmission no symbol state changes, so resolution is
modelled as a pure oracle `resolve : String → Option (stale × live)`
(`none` models a `SyntaxError` from `_get_cell_ast`).  Symbols are ids;
`temporary_disable_warnings` and the liveness recording are modelled as
append-only effect logs. -/

structure StaleCheckerState where
  lastRefusedCode : Option String
  prevCellStaleSymbols : List Nat
  staleDependencyDetected : Bool
  disabledWarnings : List Nat
  livenessRecorded : List (Nat × Nat)
  deriving DecidableEq, Repr

/-- Method `_precheck_for_stale(cell)`: returns the verdict (`True` =
refuse) and the updated state.  `res.1` are the stale, `res.2` the live
symbols resolved for the cell. -/
def precheckForStale (resolve : String → Option (List Nat × List Nat))
    (cellCtr : Nat) (st : StaleCheckerState) (cell : String) :
    Bool × StaleCheckerState :=
  (resolve cell).elim (false, st) (fun res =>
    if st.lastRefusedCode = none ∨ ¬ st.lastRefusedCode = some cell then
      if res.1.length > 0 then
        (true,
          { st with
            prevCellStaleSymbols := res.1,
            staleDependencyDetected := true,
            lastRefusedCode := some cell })
      else
        (false,
          { st with
            prevCellStaleSymbols := res.1,
            livenessRecorded :=
              st.livenessRecorded ++ res.2.map (fun s2 => (s2, cellCtr)),
            lastRefusedCode := none })
    else
      (false,
        { st with
          disabledWarnings := st.disabledWarnings ++ st.prevCellStaleSymbols,
          prevCellStaleSymbols := [],
          livenessRecorded :=
            st.livenessRecorded ++ res.2.map (fun s2 => (s2, cellCtr)),
          lastRefusedCode := none }))

/-- Claim C4: if a cell is refused for staleness, the byte-identical
resubmission executes — the second call returns `False`, suppresses
warnings for exactly the previously recorded stale symbols, and resets
the refused-code marker — and a third call (any cell text, in particular
a different one) is evaluated afresh: it is refused exactly when its own
resolution finds live stale symbols, not unconditionally. -/
theorem claim_C4 (resolve : String → Option (List Nat × List Nat))
    (ctr1 ctr2 ctr3 : Nat) (st st1 : StaleCheckerState) (cell : String)
    (hFirst : precheckForStale resolve ctr1 st cell = (true, st1)) :
    (precheckForStale resolve ctr2 st1 cell).fst = false ∧
      (precheckForStale resolve ctr2 st1 cell).snd.lastRefusedCode = none ∧
      (∀ s2 ∈ st1.prevCellStaleSymbols,
        s2 ∈ (precheckForStale resolve ctr2 st1 cell).snd.disabledWarnings) ∧
      (∀ cell2,
        (precheckForStale resolve ctr3
            (precheckForStale resolve ctr2 st1 cell).snd cell2).fst = true ↔
          ∃ staleSymbols liveSymbols,
            resolve cell2 = some (staleSymbols, liveSymbols) ∧
              staleSymbols.length > 0) := by
  have hResolved : ∃ res,
      resolve cell = some res ∧ res.1.length > 0 ∧
        st1.lastRefusedCode = some cell := by
    unfold precheckForStale at hFirst
    cases hr : resolve cell with
    | none =>
      rw [hr, Option.elim_none] at hFirst
      cases hFirst
    | some res =>
      rw [hr, Option.elim_some] at hFirst
      by_cases hcond : st.lastRefusedCode = none ∨ ¬ st.lastRefusedCode = some cell
      · rw [if_pos hcond] at hFirst
        by_cases hlen : res.1.length > 0
        · rw [if_pos hlen] at hFirst
          injection hFirst with hb hs
          exact ⟨res, rfl, hlen, by rw [← hs]⟩
        · rw [if_neg hlen] at hFirst
          injection hFirst with hb
          cases hb
      · rw [if_neg hcond] at hFirst
        injection hFirst with hb
        cases hb
  obtain ⟨res, hr, hlen, hlast⟩ := hResolved
  have hSecond : precheckForStale resolve ctr2 st1 cell =
      (false,
        { st1 with
          disabledWarnings := st1.disabledWarnings ++ st1.prevCellStaleSymbols,
          prevCellStaleSymbols := [],
          livenessRecorded :=
            st1.livenessRecorded ++ res.2.map (fun s2 => (s2, ctr2)),
          lastRefusedCode := none }) := by
    unfold precheckForStale
    rw [hr, Option.elim_some, if_neg]
    intro hc
    rcases hc with hc | hc
    · rw [hlast] at hc
      cases hc
    · exact hc hlast
  refine ⟨by rw [hSecond], by rw [hSecond], ?_, ?_⟩
  · intro s2 hs2
    rw [hSecond]
    simp only [List.mem_append]
    exact Or.inr hs2
  · intro cell2
    rw [hSecond]
    constructor
    · intro hthird
      unfold precheckForStale at hthird
      cases hr2 : resolve cell2 with
      | none =>
        rw [hr2, Option.elim_none] at hthird
        cases hthird
      | some res2 =>
        rw [hr2, Option.elim_some] at hthird
        rw [if_pos (Or.inl rfl)] at hthird
        by_cases hlen2 : res2.1.length > 0
        · exact ⟨res2.1, res2.2, rfl, hlen2⟩
        · rw [if_neg hlen2] at hthird
          cases hthird
    · rintro ⟨stale2, live2, hr2, hlen2⟩
      unfold precheckForStale
      rw [hr2, Option.elim_some, if_pos (Or.inl rfl), if_pos hlen2]

/-- Witness for `claim_C4` at a concrete oracle: `c1` resolves to one
live stale symbol, `c2` resolves clean. -/
theorem claim_C4_witness :
    precheckForStale
        (fun c => if c = "c1" then some ([1], [1]) else
          if c = "c2" then some ([], []) else none)
        1 ⟨none, [], false, [], []⟩ "c1" =
      (true, ⟨some "c1", [1], true, [], []⟩) ∧
      (precheckForStale
        (fun c => if c = "c1" then some ([1], [1]) else
          if c = "c2" then some ([], []) else none)
        2 ⟨some "c1", [1], true, [], []⟩ "c1").fst = false :=
  ⟨by decide,
    (claim_C4
        (fun c => if c = "c1" then some ([1], [1]) else
          if c = "c2" then some ([], []) else none)
        1 2 3 ⟨none, [], false, [], []⟩ ⟨some "c1", [1], true, [], []⟩ "c1"
        (by decide)).1⟩

/-! ### Embedding of `NotebookSafety.get_cell_dependencies` (`safety.py`)

The resolver walks the per-symbol history maps
`version_by_used_timestamp` (dynamic channel) and
`version_by_liveness_timestamp` (static channel).  Cell numbers are
integers (the recursion stops at numbers `≤ 0`). -/

def insertInt (s : List Int) (x : Int) : List Int :=
  if x ∈ s then s else s ++ [x]

def unionInt (a b : List Int) : List Int :=
  b.foldl insertInt a

structure SymbolHistory where
  versionByUsedTimestamp : List (Int × Int)
  versionByLivenessTimestamp : List (Int × Int)
  deriving DecidableEq, Repr

structure DepState where
  symbols : List SymbolHistory
  cellContentByCounter : List (Int × String)
  deriving DecidableEq, Repr

/-- Lookup in a `defaultdict(set)` keyed by cell number. -/
def getDeps (m : List (Int × List Int)) (c : Int) : List Int :=
  (((m.find? (fun p => decide (p.1 = c))).map Prod.snd)).getD []

def addDep (m : List (Int × List Int)) (c v : Int) : List (Int × List Int) :=
  if (m.find? (fun p => decide (p.1 = c))).isSome then
    m.map (fun p => if p.1 = c then (c, insertInt p.2 v) else p)
  else m ++ [(c, [v])]

/-- The two loops of `get_cell_dependencies` that aggregate every
symbol's history map into `cell_num_to_dynamic_deps` and
`cell_num_to_static_deps`. -/
def buildDepsFromMaps (select : SymbolHistory → List (Int × Int))
    (symbols : List SymbolHistory) : List (Int × List Int) :=
  symbols.foldl
    (fun m sym => (select sym).foldl (fun m2 p => addDep m2 p.1 p.2) m) []

/-- Method `_get_cell_dependencies`: the recursive closure walk.  The
`fuel` argument bounds the recursion depth of the shallow embedding; each
nested call adds one fresh positive cell number to `dependencies` before
recursing, so any fuel exceeding the total number of recorded versions
(plus the start cell) makes the embedding agree with the unbounded Python
recursion. -/
def getCellDependenciesAux (dyn stat : List (Int × List Int)) :
    Nat → Int → List Int → List Int
  | 0, _, deps => deps
  | fuel + 1, cellNum, deps =>
    if cellNum ∈ deps ∨ cellNum ≤ 0 then deps
    else
      let deps2 := deps ++ [cellNum]
      let depCellNums := unionInt (getDeps dyn cellNum) (getDeps stat cellNum)
      (depCellNums.filter (fun n => decide (n ∉ deps2))).foldl
        (fun d n => getCellDependenciesAux dyn stat fuel n d) deps2

/-- Method `get_cell_dependencies(cell_num)`: raises `ValueError` for a
never-run cell (`none`), aggregates the history maps, runs the recursive
walk, and maps every collected cell number to its recorded source text
(a missing text would raise `KeyError`, also `none`). -/
def getCellDependencies (st : DepState) (cellNum : Int) :
    Option (List (Int × String)) :=
  if (st.cellContentByCounter.find? (fun p => decide (p.1 = cellNum))).isSome then
    let dyn := buildDepsFromMaps (fun s2 => s2.versionByUsedTimestamp) st.symbols
    let stat :=
      buildDepsFromMaps (fun s2 => s2.versionByLivenessTimestamp) st.symbols
    let fuel := 2 + (st.symbols.map
      (fun s2 => s2.versionByUsedTimestamp.length +
        s2.versionByLivenessTimestamp.length)).sum
    let deps := getCellDependenciesAux dyn stat fuel cellNum []
    if deps.all
        (fun n => (st.cellContentByCounter.find? (fun p => decide (p.1 = n))).isSome)
    then
      some (deps.map (fun n =>
        (n, (((st.cellContentByCounter.find? (fun p => decide (p.1 = n))).map
          Prod.snd)).getD "")))
    else none
  else none

/-- The recorded state after the C5 scenario: cell 1 ran `v = 1`, cell 2
read `v` (recording, for the single symbol `v`, used-version 1 and
live-version 1 at timestamp 2), cell 3 ran `v = 2` (no live reads, so
nothing recorded at timestamp 3). -/
def c5State : DepState :=
  ⟨[⟨[(2, 1)], [(2, 1)]⟩],
    [(1, "v = 1"), (2, "logging.info(v)"), (3, "v = 2")]⟩

/-- Counterexample to claim C5 as stated: in the scenario A=1, B=2, C=3,
`get_cell_dependencies(B)` returns a mapping that contains B's own cell
number 2 (the code adds the queried cell itself to the dependency set
before recursing), so the key set is not the singleton defined by A. -/
theorem claim_C5_counterexample :
    getCellDependencies c5State 2 =
        some [(2, "logging.info(v)"), (1, "v = 1")] ∧
      (2 : Int) ∈
        (([(2, "logging.info(v)"), (1, "v = 1")] : List (Int × String)).map
          Prod.fst) ∧
      (2 : Int) ≠ 1 := by
  decide

/-- Claim C5 (amended): in the scenario A=1, B=2, C=3,
`get_cell_dependencies(B)` returns the mapping whose key set is `{A, B}`:
the recursive walk adds the queried cell itself to the dependency set,
and A is the only strictly earlier cell it depends on. -/
theorem claim_C5_amended :
    getCellDependencies c5State 2 =
        some [(2, "logging.info(v)"), (1, "v = 1")] ∧
      (([(2, "logging.info(v)"), (1, "v = 1")] : List (Int × String)).map
          Prod.fst).toFinset = ({1, 2} : Finset Int) := by
  decide

/-! ### Embedding of `NotebookSafety.check_and_link_multiple_cells`
(`safety.py`)

Cell ids and symbols are numbered; `_check_cell_and_resolve_symbols`
(which depends on the analysis collaborators outside this engine) is a
pure oracle `resolve` returning the live/dead/stale symbol sets of a cell
text, `none` modelling a `SyntaxError`.  Python sets are duplicate-free
lists in first-insertion order. -/

def unionNats (a b : List Nat) : List Nat :=
  b.foldl insertNat a

structure ResolvedSymbols where
  live : List Nat
  dead : List Nat
  stale : List Nat
  deriving DecidableEq, Repr

structure LinkerEnv where
  highlightsEnabled : Bool
  naiveRefresherComputation : Bool
  activeCellPositionIdx : Int
  countersByCellId : List (Nat × Nat)
  resolve : String → Option ResolvedSymbols
  definedCellNum : Nat → Int
  namespaceMaxTs : Nat → Option Int

/-- Helper `_get_max_defined_cell_num_for_symbols`: the maximum of the
symbols' `defined_cell_num`, joined with the registered namespace's
`max_defined_timestamp` where one exists, starting from `-1`. -/
def getMaxDefinedCellNumForSymbols (env : LinkerEnv) (symbols : List Nat) : Int :=
  symbols.foldl
    (fun m s2 =>
      let m2 := max m (env.definedCellNum s2)
      match env.namespaceMaxTs s2 with
      | some t => max m2 t
      | none => m2) (-1)

def getOrderIdx (oi : List (Nat × Int)) (c : Nat) : Int :=
  (((oi.find? (fun p => decide (p.1 = c))).map Prod.snd)).getD (-1)

def lookupCounter (env : LinkerEnv) (c : Nat) : Option Nat :=
  (env.countersByCellId.find? (fun p => decide (p.1 = c))).map Prod.snd

def getAssocNats (m : List (Nat × List Nat)) (k : Nat) : List Nat :=
  (((m.find? (fun p => decide (p.1 = k))).map Prod.snd)).getD []

/-- Update of a `defaultdict(set)` entry: `m[k].add(v)`. -/
def addToSetAssoc (m : List (Nat × List Nat)) (k v : Nat) : List (Nat × List Nat) :=
  if (m.find? (fun p => decide (p.1 = k))).isSome then
    m.map (fun p => if p.1 = k then (k, insertNat p.2 v) else p)
  else m ++ [(k, [v])]

/-- Plain dict / `defaultdict(set)` entry assignment: `m[k] = v`. -/
def setAssocNats (m : List (Nat × List Nat)) (k : Nat) (v : List Nat) :
    List (Nat × List Nat) :=
  if (m.find? (fun p => decide (p.1 = k))).isSome then
    m.map (fun p => if p.1 = k then (k, v) else p)
  else m ++ [(k, v)]

/-- Update of a `defaultdict(list)` entry: `m[k].append(v)`. -/
def appendToListAssoc (m : List (Nat × List Nat)) (k v : Nat) :
    List (Nat × List Nat) :=
  if (m.find? (fun p => decide (p.1 = k))).isSome then
    m.map (fun p => if p.1 = k then (k, p.2 ++ [v]) else p)
  else m ++ [(k, [v])]

structure Phase1Out where
  staleCells : List Nat
  freshCells : List Nat
  staleSymbolsByCellId : List (Nat × List Nat)
  killingCellIdsForSymbol : List (Nat × List Nat)
  deriving DecidableEq, Repr

/-- The first loop of `check_and_link_multiple_cells`: resolve every
candidate (skipping already-executed ones when an order index is given
and swallowing `SyntaxError`s), classify it stale or fresh, and record
which cells kill each dead symbol. -/
def resolvePhase (env : LinkerEnv) (orderIdx : Option (List (Nat × Int))) :
    List (Nat × String) → Phase1Out → Phase1Out
  | [], acc => acc
  | (cellId, content) :: rest, acc =>
    let skip : Bool :=
      match orderIdx with
      | some oi => decide (getOrderIdx oi cellId ≤ env.activeCellPositionIdx)
      | none => false
    if skip then resolvePhase env orderIdx rest acc
    else
      match env.resolve content with
      | none => resolvePhase env orderIdx rest acc
      | some symbols =>
        let acc2 :=
          if symbols.stale.length > 0 then
            { acc with
              staleSymbolsByCellId :=
                acc.staleSymbolsByCellId ++ [(cellId, symbols.stale)],
              staleCells := insertNat acc.staleCells cellId }
          else if (match lookupCounter env cellId with
              | some k =>
                decide (getMaxDefinedCellNumForSymbols env symbols.live > (k : Int))
              | none => false) then
            { acc with freshCells := acc.freshCells ++ [cellId] }
          else acc
        let acc3 := symbols.dead.foldl
          (fun a deadSym =>
            { a with
              killingCellIdsForSymbol :=
                addToSetAssoc a.killingCellIdsForSymbol deadSym cellId }) acc2
        resolvePhase env orderIdx rest acc3

def subsetNat (a b : List Nat) : Bool :=
  a.all (fun x => decide (x ∈ b))

/-- Python strict set inclusion `s < t`. -/
def strictSubsetNat (a b : List Nat) : Bool :=
  subsetNat a b && !(subsetNat b a)

/-- Method `_naive_compute_refresher_cells`: concatenate each earlier
candidate in front of the stale cell and re-resolve, keeping the cells
that strictly shrink the stale set. -/
def naiveComputeRefresherCells (env : LinkerEnv) (cellsById : List (Nat × String))
    (orderIdx : Option (List (Nat × Int))) (staleCellId : Nat)
    (staleSymbols : List Nat) : List Nat :=
  let staleCellContent :=
    (((cellsById.find? (fun p => decide (p.1 = staleCellId))).map Prod.snd)).getD ""
  cellsById.foldl
    (fun acc p =>
      if p.1 = staleCellId then acc
      else if (match orderIdx with
          | some oi => decide (getOrderIdx oi p.1 ≥ getOrderIdx oi staleCellId)
          | none => false) then acc
      else
        match env.resolve (p.2 ++ "\n\n" ++ staleCellContent) with
        | none => acc
        | some syms =>
          if strictSubsetNat syms.stale staleSymbols then insertNat acc p.1
          else acc) []

/-- The second loop: each stale cell's direct refreshers are the union of
the kill sets of its stale symbols (or the naive recomputation). -/
def initialStaleLinks (env : LinkerEnv) (cellsById : List (Nat × String))
    (orderIdx : Option (List (Nat × Int))) (p : Phase1Out) :
    List (Nat × List Nat) :=
  p.staleCells.foldl
    (fun links c =>
      let staleSyms := getAssocNats p.staleSymbolsByCellId c
      let refresherCellIds :=
        if env.naiveRefresherComputation then
          naiveComputeRefresherCells env cellsById orderIdx c staleSyms
        else
          staleSyms.foldl
            (fun acc s2 => unionNats acc (getAssocNats p.killingCellIdsForSymbol s2))
            []
      setAssocNats links c refresherCellIds) []

/-- The body of the transitive-closure loop for one stale cell: absorb the
links of every stale refresher, discard the self edge, and report a
change if (and only if) the set's size changed. -/
def closurePassCell (staleCells : List Nat) (links : List (Nat × List Nat))
    (c : Nat) : Bool × List (Nat × List Nat) :=
  let cur := getAssocNats links c
  let originalLength := cur.length
  let absorbed := cur.foldl
    (fun acc r => if r ∈ staleCells then unionNats acc (getAssocNats links r) else acc)
    cur
  let newLinks := absorbed.filter (fun x => decide (¬ x = c))
  (decide (¬ originalLength = newLinks.length), setAssocNats links c newLinks)

/-- One full pass of the `while stale_link_changes` loop. -/
def closurePass (staleCells : List Nat) (links : List (Nat × List Nat)) :
    Bool × List (Nat × List Nat) :=
  staleCells.foldl
    (fun st c =>
      let r := closurePassCell staleCells st.2 c
      (st.1 || r.1, r.2))
    (false, links)

/-- The `while stale_link_changes` loop, fuelled.  After the first pass
every link set excludes its own cell and only grows, so the number of
passes that report a change is bounded by the total capacity of the link
sets; any fuel above `|staleCells| * |cells| + 2` reproduces the Python
loop exactly. -/
def closureLoop : Nat → List Nat → List (Nat × List Nat) → List (Nat × List Nat)
  | 0, _, links => links
  | fuel + 1, staleCells, links =>
    let r := closurePass staleCells links
    if r.1 then closureLoop fuel staleCells r.2 else r.2

/-- The final loop: strip stale cells from every link set and transpose
the remainder into `refresher_links`. -/
def finalizeLinks (staleCells : List Nat) (links : List (Nat × List Nat)) :
    List (Nat × List Nat) × List (Nat × List Nat) :=
  staleCells.foldl
    (fun st c =>
      let l2 := (getAssocNats st.1 c).filter (fun x => decide (x ∉ staleCells))
      let links2 := setAssocNats st.1 c l2
      let rl2 := l2.foldl (fun rl r => appendToListAssoc rl r c) st.2
      (links2, rl2))
    (links, [])

structure CheckResult where
  staleCells : List Nat
  freshCells : List Nat
  staleLinks : List (Nat × List Nat)
  refresherLinks : List (Nat × List Nat)
  deriving DecidableEq, Repr

/-- Method `check_and_link_multiple_cells`. -/
def checkAndLinkMultipleCells (env : LinkerEnv) (cellsById : List (Nat × String))
    (orderIdx : Option (List (Nat × Int))) : CheckResult :=
  if env.highlightsEnabled then
    let p := resolvePhase env orderIdx cellsById ⟨[], [], [], []⟩
    let links0 := initialStaleLinks env cellsById orderIdx p
    let fuel := p.staleCells.length * (cellsById.length + 1) + 2
    let links1 := closureLoop fuel p.staleCells links0
    let fin := finalizeLinks p.staleCells links1
    ⟨p.staleCells, p.freshCells, fin.1, fin.2⟩
  else ⟨[], [], [], []⟩

/-- Resolution oracle for the C1 failing batch.  Cell 0 reads the stale
symbols 10 and 11 and rebinds 10 itself (`x = x + 1` style); cell 1 reads
the stale symbols 12 and 13 and rebinds 11 and 12; cell 2 reads the stale
symbol 14 and rebinds 13; cell 3 is clean and rebinds 14. -/
def c1Resolve : String → Option ResolvedSymbols := fun c =>
  if c = "cell0" then some ⟨[10, 11], [10], [10, 11]⟩
  else if c = "cell1" then some ⟨[12, 13], [11, 12], [12, 13]⟩
  else if c = "cell2" then some ⟨[14], [13], [14]⟩
  else if c = "cell3" then some ⟨[], [14], []⟩
  else none

def c1Env : LinkerEnv :=
  ⟨true, false, -1, [], c1Resolve, fun _ => 0, fun _ => none⟩

def c1Cells : List (Nat × String) :=
  [(0, "cell0"), (1, "cell1"), (2, "cell2"), (3, "cell3")]

def c1Phase : Phase1Out := resolvePhase c1Env none c1Cells ⟨[], [], [], []⟩

/-- The state of `stale_links` at the moment the `while stale_link_changes`
loop exits for the C1 batch. -/
def c1LoopExit : List (Nat × List Nat) :=
  closureLoop (c1Phase.staleCells.length * (c1Cells.length + 1) + 2)
    c1Phase.staleCells (initialStaleLinks c1Env c1Cells none c1Phase)

/-- Claim C1 evaluated at the failing batch: the initial links are
stale_links[0] = `{0,1}` (cell 0 kills one of its own stale symbols),
stale_links[1] = `{1,2}`, stale_links[2] = `{3}`, with stale cells
`{0,1,2}`.  The first pass discards the self edges while absorbing
exactly one new element per set, so every length comparison sees no
change and the loop exits with stale_links[0] = `{1,2}` — yet one further
iteration of the same closure step changes that entry to `{1,2,3}`: the
exit state is not a fixed point.  Consequently the returned
`stale_links[0]`, after stale cells are stripped, is empty and the
genuine non-stale refresher 3 of cell 0 is lost. -/
theorem claim_C1_code_eval :
    c1Phase.staleCells = [0, 1, 2] ∧
      initialStaleLinks c1Env c1Cells none c1Phase =
        [(0, [0, 1]), (1, [1, 2]), (2, [3])] ∧
      c1LoopExit = [(0, [1, 2]), (1, [2, 3]), (2, [3])] ∧
      (closurePass c1Phase.staleCells c1LoopExit).1 = true ∧
      getAssocNats (closurePass c1Phase.staleCells c1LoopExit).2 0 = [1, 2, 3] ∧
      getAssocNats (checkAndLinkMultipleCells c1Env c1Cells none).staleLinks 0 =
        [] := by
  decide

/-- Claim C10: with highlights disabled, `check_and_link_multiple_cells`
returns the empty result for every environment (in particular whatever
the resolution oracle would answer — no candidate is resolved) and every
batch, and the pure embedding shows no state is touched. -/
theorem claim_C10 (env : LinkerEnv) (cellsById : List (Nat × String))
    (orderIdx : Option (List (Nat × Int)))
    (h : env.highlightsEnabled = false) :
    checkAndLinkMultipleCells env cellsById orderIdx = ⟨[], [], [], []⟩ := by
  unfold checkAndLinkMultipleCells
  rw [h]
  simp

/-- Witness for `claim_C10`: the C1 environment with highlights turned
off. -/
theorem claim_C10_witness :
    (LinkerEnv.mk false false (-1) [] c1Resolve (fun _ => 0)
        (fun _ => none)).highlightsEnabled = false ∧
      checkAndLinkMultipleCells
          (LinkerEnv.mk false false (-1) [] c1Resolve (fun _ => 0) (fun _ => none))
          c1Cells none =
        ⟨[], [], [], []⟩ :=
  ⟨rfl,
    claim_C10 (LinkerEnv.mk false false (-1) [] c1Resolve (fun _ => 0) (fun _ => none))
      c1Cells none rfl⟩

end NbSafety
